import Mathlib

/-!
Verification of the to-do manager (`gptcode1.py`): shallow embedding of its
data model, extraction engine, persistence layer and store operations,
followed by theorems settling the specification claims.

Modelling conventions:
* A persisted JSON document is modelled by the inductive `JSON`; a Python
  dict is an association list whose keys are unique (exactly what
  `json.load` produces: later duplicates overwrite earlier ones before the
  program sees the dict).  JSON numbers are modelled by `Int`; no claim
  involves numeric field values.
* Python exceptions are modelled by `PyErr` and fallible code returns
  `Except PyErr`.  The `try/except (json.JSONDecodeError, TypeError,
  KeyError)` block of `load_tasks` is the `caught` filter below.
* The backing file is modelled by `FileContent`: absent, present but not
  valid UTF-8 (reading such a file raises `UnicodeDecodeError`, which is a
  `ValueError` but *not* a `json.JSONDecodeError`), present and decodable
  but not valid JSON (raises `json.JSONDecodeError`), or a decoded JSON
  document.
* Strings are handled at the `List Char` level; `str.lower` and
  `str.strip` are modelled on their ASCII fragment (every input appearing
  in the claims is ASCII).
-/

namespace TaskApp

/-- A decoded JSON document, as produced by Python `json.load`.
`obj` models a Python dict: an association list with unique keys. -/
inductive JSON where
  | null
  | bool (b : Bool)
  | num (n : Int)
  | str (s : String)
  | arr (items : List JSON)
  | obj (fields : List (String × JSON))

/-- The Python exceptions relevant to `load_tasks`. -/
inductive PyErr where
  | jsonDecodeError
  | typeError
  | keyError
  | unicodeDecodeError
  | attributeError
deriving DecidableEq

/-- State of the backing file `tasks.json`. -/
inductive FileContent where
  | missing
  | invalidUtf8
  | invalidJson
  | json (v : JSON)

/-- The `Task` dataclass.  Python dataclasses do not enforce the field
annotations, so a field holds an arbitrary value; fields are therefore
`JSON` values (all values reaching `Task` come from `json.load` or are
strings built by `parse_task`). -/
structure Task where
  raw_text : JSON
  deadline : JSON
  priority : JSON

/-- Here `substrAux n h` is Python substring test `n in h`:
some suffix of `h` has `n` as a prefix. -/
def substrAux (n : List Char) : List Char → Bool
  | [] => n.isPrefixOf []
  | c :: rest => n.isPrefixOf (c :: rest) || substrAux n rest

/-- Python `==` between a JSON value and a str: only an equal str
compares equal. -/
def eqStr (v : JSON) (s : String) : Bool :=
  match v with
  | .str t => t == s
  | _ => false

/-- Python `needle in item` for the values `item` can take here:
substring test on a str, key-membership on a dict, element-membership on a
list; `in` on a number / bool / None raises `TypeError`. -/
def pyContains (needle : String) (item : JSON) : Except PyErr Bool :=
  match item with
  | .str s => .ok (substrAux needle.toList s.toList)
  | .obj kvs => .ok (kvs.any (fun kv => needle == kv.1))
  | .arr l => .ok (l.any (fun v => eqStr v needle))
  | _ => .error .typeError

/-- Python `item[key]` with a string key: dict lookup (`KeyError` when
absent); indexing a str or list with a str raises `TypeError`, as does
indexing any other value reachable here. -/
def getItem (item : JSON) (key : String) : Except PyErr JSON :=
  match item with
  | .obj kvs =>
    match kvs.lookup key with
    | some v => .ok v
    | none => .error .keyError
  | _ => .error .typeError

/-- Python `item.get(key, dflt)`: only dicts have `.get`; any other value
would raise `AttributeError` (never reached by `load_tasks`, see
`loadItem`). -/
def pyGet (item : JSON) (key : String) (dflt : JSON) : Except PyErr JSON :=
  match item with
  | .obj kvs => .ok ((kvs.lookup key).getD dflt)
  | _ => .error .attributeError

/-- Models `Task(**item)` for a dict `item`: the keyword set must be exactly
`{raw_text, deadline, priority}` (the dataclass has no defaults, so a
missing field raises `TypeError`, and so does an unexpected keyword); dict
keys are unique, hence the length check. -/
def taskFromKwargs (kvs : List (String × JSON)) : Except PyErr Task :=
  match kvs.lookup "raw_text", kvs.lookup "deadline", kvs.lookup "priority" with
  | some rt, some dl, some pr =>
    if kvs.length = 3 then .ok ⟨rt, dl, pr⟩ else .error .typeError
  | _, _, _ => .error .typeError

/-- One iteration of the `for item in data` loop body of `load_tasks`:
`.ok (some t)` appends `t`, `.ok none` skips the record, `.error e`
raises. -/
def loadItem (item : JSON) : Except PyErr (Option Task) :=
  match pyContains "raw_text" item with
  | .error e => .error e
  | .ok true =>
    match item with
    | .obj kvs =>
      match taskFromKwargs kvs with
      | .error e => .error e
      | .ok t => .ok (some t)
    | _ => .error .typeError
  | .ok false =>
    match pyContains "description" item with
    | .error e => .error e
    | .ok true =>
      match getItem item "description" with
      | .error e => .error e
      | .ok d =>
        match pyGet item "deadline" (.str "unspecified") with
        | .error e => .error e
        | .ok dl =>
          match pyGet item "priority" (.str "medium") with
          | .error e => .error e
          | .ok pr => .ok (some ⟨d, dl, pr⟩)
    | .ok false => .ok none

/-- The whole `for item in data` loop. -/
def loadItems : List JSON → Except PyErr (List Task)
  | [] => .ok []
  | item :: rest =>
    match loadItem item with
    | .error e => .error e
    | .ok none => loadItems rest
    | .ok (some t) =>
      match loadItems rest with
      | .error e => .error e
      | .ok ts => .ok (t :: ts)

/-- Python `for item in data` over the value `json.load` returned:
lists iterate their elements, strings their characters (one-character
strings), dicts their keys; numbers / bools / None raise `TypeError`. -/
def pyIter (v : JSON) : Except PyErr (List JSON) :=
  match v with
  | .arr l => .ok l
  | .str s => .ok (s.toList.map (fun c => .str (String.mk [c])))
  | .obj kvs => .ok (kvs.map (fun kv => .str kv.1))
  | _ => .error .typeError

/-- The body of the `try` block of `load_tasks` (file already known to
exist). -/
def loadBody (file : FileContent) : Except PyErr (List Task) :=
  match file with
  | .missing => .ok []
  | .invalidUtf8 => .error .unicodeDecodeError
  | .invalidJson => .error .jsonDecodeError
  | .json v =>
    match pyIter v with
    | .error e => .error e
    | .ok items => loadItems items

/-- The exception classes named in the `except` clause of `load_tasks`:
`json.JSONDecodeError`, `TypeError`, `KeyError`.  `UnicodeDecodeError`
subclasses `ValueError`, not `json.JSONDecodeError`, so it is NOT caught. -/
def caught : PyErr → Bool
  | .jsonDecodeError => true
  | .typeError => true
  | .keyError => true
  | _ => false

/-- Models `load_tasks()`: early return on a missing file, then the `try` body
with the broad `except` returning `[]`. -/
def load_tasks (file : FileContent) : Except PyErr (List Task) :=
  match file with
  | .missing => .ok []
  | _ =>
    match loadBody file with
    | .ok ts => .ok ts
    | .error e => if caught e then .ok [] else .error e

/-- Models `task.__dict__` of a dataclass instance: fields in declaration
order. -/
def taskToObj (t : Task) : JSON :=
  .obj [("raw_text", t.raw_text), ("deadline", t.deadline), ("priority", t.priority)]

/-- Models `save_tasks(tasks)`: overwrites the file with the JSON dump of the
records (indentation is not significant, so the result is the decoded
document). -/
def save_tasks (tasks : List Task) : FileContent :=
  .json (.arr (tasks.map taskToObj))

/-! Section: the extraction engine. -/

/-- Models `text.lower()` (ASCII fragment), at the character-list level. -/
def lowerChars (text : String) : List Char :=
  text.toList.map Char.toLower

/-- The characters Python `str.strip()` removes (ASCII fragment of
`str.isspace`). -/
def isPySpace (c : Char) : Bool :=
  c == ' ' || c == '\t' || c == '\n' || c == '\x0d' || c == '\x0b' || c == '\x0c'

/-- Models `s.strip()` (ASCII fragment). -/
def pyStrip (s : String) : String :=
  String.mk (((s.toList.dropWhile isPySpace).reverse.dropWhile isPySpace).reverse)

/-- Models `PRIORITY_KEYWORDS["high"]`. -/
def PRIORITY_KEYWORDS_high : List String :=
  ["urgent", "important", "asap", "immediately", "critical", "today"]

/-- Models `PRIORITY_KEYWORDS["medium"]`. -/
def PRIORITY_KEYWORDS_medium : List String :=
  ["soon", "this week", "next few days"]

/-- Models `LOW_PRIORITY_PHRASES`. -/
def LOW_PRIORITY_PHRASES : List String :=
  ["not urgent", "no urgency", "low priority", "not important"]

/-- Models `phrase in text` on an already-lowercased character list. -/
def containsSub (needle : String) (hay : List Char) : Bool :=
  substrAux needle.toList hay

/-- Models `extract_priority(text)`: each `for` loop returns the same constant
for every element, so a first-hit loop is exactly `List.any`. -/
def extract_priority (text : String) : String :=
  let t := lowerChars text
  if LOW_PRIORITY_PHRASES.any (fun phrase => containsSub phrase t) then "low"
  else if PRIORITY_KEYWORDS_high.any (fun word => containsSub word t) then "high"
  else if PRIORITY_KEYWORDS_medium.any (fun word => containsSub word t) then "medium"
  else "medium"

/-!
The deadline regexes.  Each of the seven patterns is a deterministic
matcher `List Char → Option (List Char)` returning the characters the
pattern consumes at the head of the input, `none` when it does not match
there.  For these particular patterns a committed (non-backtracking)
matcher coincides with Python `re`: every alternation group sits at the
very end of its pattern (so committing to the first alternative that
matches, in source order, is exactly Python leftmost-alternative rule
with nothing after the group to fail), and the greedy `\d+` is always
followed by a literal space (giving digits back can never turn a failure
into a success).  Note the consequence, faithful to `re`: in
`within \d+ (?:day|days|...)` the alternative `day` is tried before
`days`, so `"within 3 days"` matches as `"within 3 day"`.
-/

/-- Matcher for a literal pattern piece. -/
def matchLit (lit : String) (s : List Char) : Option (List Char) :=
  if lit.toList.isPrefixOf s then some lit.toList else none

/-- Ordered alternation of literals, leftmost alternative first
(`(?:a|b|...)` at the end of a pattern). -/
def matchAlt : List String → List Char → Option (List Char)
  | [], _ => none
  | lit :: lits, s =>
    match matchLit lit s with
    | some r => some r
    | none => matchAlt lits s

/-- Models `re` pattern `within \d+ (?:day|days|week|weeks|month|months)`. -/
def matchWithin (s : List Char) : Option (List Char) :=
  match matchLit "within " s with
  | none => none
  | some p =>
    let r := s.drop p.length
    let ds := r.takeWhile Char.isDigit
    if ds.isEmpty then none
    else
      let r2 := r.drop ds.length
      match matchLit " " r2 with
      | none => none
      | some _ =>
        match matchAlt ["day", "days", "week", "weeks", "month", "months"] (r2.drop 1) with
        | none => none
        | some u => some (p ++ ds ++ [' '] ++ u)

/-- A literal piece followed by a final alternation group
(`by (?:monday|...)`, `this (?:...)`, `next (?:...)`). -/
def matchSeqAlt (lit : String) (alts : List String) (s : List Char) : Option (List Char) :=
  match matchLit lit s with
  | none => none
  | some p =>
    match matchAlt alts (s.drop p.length) with
    | none => none
    | some u => some (p ++ u)

/-- The seven weekday names, in pattern order. -/
def weekdays : List String :=
  ["monday", "tuesday", "wednesday", "thursday", "friday", "saturday", "sunday"]

/-- The list `DEADLINE_REGEXES`, in source order. -/
def DEADLINE_REGEXES : List (List Char → Option (List Char)) :=
  [matchLit "today",
   matchLit "tomorrow",
   matchWithin,
   matchSeqAlt "by " weekdays,
   matchSeqAlt "this " weekdays,
   matchSeqAlt "next " weekdays,
   matchSeqAlt "next " ["week", "month"]]

/-- Models `regex.search(text)`: try the matcher at position 0, 1, ... (every
suffix, the empty one included) and return the leftmost match. -/
def searchPat (m : List Char → Option (List Char)) : List Char → Option (List Char)
  | [] => m []
  | c :: rest =>
    match m (c :: rest) with
    | some r => some r
    | none => searchPat m rest

/-- The `for regex in DEADLINE_REGEXES` loop: first regex (in list order)
with a match anywhere wins. -/
def firstMatch (t : List Char) : List (List Char → Option (List Char)) → Option (List Char)
  | [] => none
  | m :: ms =>
    match searchPat m t with
    | some r => some r
    | none => firstMatch t ms

/-- Models `extract_deadline(text)`. -/
def extract_deadline (text : String) : String :=
  match firstMatch (lowerChars text) DEADLINE_REGEXES with
  | some r => String.mk r
  | none => "unspecified"

/-- Models `parse_task(user_input)`. -/
def parse_task (user_input : String) : Task :=
  ⟨.str (pyStrip user_input),
   .str (extract_deadline user_input),
   .str (extract_priority user_input)⟩

/-! Section: task ops.  Console printing is outside the model; the second
component of each result records what, if anything, was written to disk. -/

/-- Models `add_task(tasks)` with the prompted line `user_input`. -/
def add_task (tasks : List Task) (user_input : String) : List Task × Option FileContent :=
  let text := pyStrip user_input
  if text = "" then (tasks, none)
  else
    let ts := tasks ++ [parse_task text]
    (ts, some (save_tasks ts))

/-- Models `delete_task(tasks)` with the prompted (already-parsed) number `idx`;
the empty-store early return and the `1 <= idx <= len(tasks)` bound check,
then `tasks.pop(idx - 1)` and a save. -/
def delete_task (tasks : List Task) (idx : Int) : List Task × Option FileContent :=
  if tasks.isEmpty then (tasks, none)
  else if 1 ≤ idx ∧ idx ≤ tasks.length then
    let ts := tasks.eraseIdx (idx - 1).toNat
    (ts, some (save_tasks ts))
  else (tasks, none)

/-! Section: shared lemmas. -/

/-- A successful dict lookup means the key-membership test succeeds. -/
theorem any_key_of_lookup {kvs : List (String × JSON)} {k : String} {v : JSON}
    (h : kvs.lookup k = some v) : kvs.any (fun kv => k == kv.1) = true := by
  induction kvs with
  | nil => simp [List.lookup] at h
  | cons kv rest ih =>
    obtain ⟨key, val⟩ := kv
    rw [List.lookup] at h
    cases hk : (k == key) with
    | true => simp [List.any_cons, hk]
    | false =>
      simp only [hk] at h
      simp [List.any_cons, hk, ih h]

/-! Claim C1. -/

/-- C1: the claim says `load_tasks` fails soft on EVERY malformed file
content, invalid encoding included.  The code catches only
`json.JSONDecodeError`, `TypeError` and `KeyError`; a file whose bytes are
not valid UTF-8 makes `json.load` raise `UnicodeDecodeError`, which is
none of those, so the exception propagates instead of yielding `[]`. -/
theorem load_tasks_invalid_encoding_propagates :
    load_tasks FileContent.invalidUtf8 = Except.error PyErr.unicodeDecodeError ∧
    ∀ ts : List Task, load_tasks FileContent.invalidUtf8 ≠ Except.ok ts :=
  ⟨rfl, fun _ h => Except.noConfusion h⟩

/-! Claim C3. -/

/-- C3 counterexample: `load_tasks` performs no validation of the stored
`priority` value, so a persisted record with priority `"banana"` is read
back verbatim — refuting the claim that every record read back by
`load_tasks` has one of the three priority levels. -/
theorem load_tasks_priority_not_validated :
    load_tasks (.json (.arr [.obj
        [("raw_text", .str "x"), ("deadline", .str "d"), ("priority", .str "banana")]]))
      = Except.ok [⟨.str "x", .str "d", .str "banana"⟩] ∧
    JSON.str "banana" ≠ JSON.str "low" ∧
    JSON.str "banana" ≠ JSON.str "medium" ∧
    JSON.str "banana" ≠ JSON.str "high" := by
  refine ⟨rfl, ?_, ?_, ?_⟩ <;> (intro h; injection h with h; exact absurd h (by decide))

/-- C3 amended: `extract_priority` returns one of the three levels for
every input, and a record built by `parse_task` therefore carries one of
the three levels; records read back by `load_tasks` carry whatever value
was persisted (see the counterexample). -/
theorem extract_priority_in_three :
    ∀ text : String,
      (extract_priority text = "low" ∨ extract_priority text = "medium" ∨
        extract_priority text = "high") ∧
      (parse_task text).priority = JSON.str (extract_priority text) := by
  intro text
  refine ⟨?_, rfl⟩
  unfold extract_priority
  dsimp only
  split
  · exact Or.inl rfl
  split
  · exact Or.inr (Or.inr rfl)
  split
  · exact Or.inr (Or.inl rfl)
  · exact Or.inr (Or.inl rfl)

/-! Claim C5. -/

/-- C5: whenever the lowercased text contains one of the four
low-priority phrases, `extract_priority` returns `"low"`, whatever other
keywords the text contains — the low check runs before the high and
medium checks. -/
theorem low_phrase_forces_low :
    ∀ text : String,
      (∃ phrase ∈ LOW_PRIORITY_PHRASES, containsSub phrase (lowerChars text) = true) →
      extract_priority text = "low" := by
  intro text h
  unfold extract_priority
  dsimp only
  rw [if_pos]
  exact List.any_eq_true.mpr h

/-- C5 witness: the spec example, a text with both a high keyword and a
low phrase. -/
theorem low_phrase_forces_low_witness :
    extract_priority "urgent but not important" = "low" :=
  low_phrase_forces_low "urgent but not important"
    ⟨"not important", by decide, by decide⟩

/-! Claim C7. -/

/-- C7: a legacy-schema record (a `description` key and no `raw_text`
key) loads as a task whose `raw_text` is the description value, whose
`deadline` is the stored value or `"unspecified"` when absent, and whose
`priority` is the stored value or `"medium"` when absent. -/
theorem legacy_record_mapping :
    ∀ (kvs : List (String × JSON)) (d : JSON),
      kvs.any (fun kv => "raw_text" == kv.1) = false →
      kvs.lookup "description" = some d →
      load_tasks (.json (.arr [.obj kvs]))
        = Except.ok [⟨d, (kvs.lookup "deadline").getD (.str "unspecified"),
                        (kvs.lookup "priority").getD (.str "medium")⟩] := by
  intro kvs d hraw hdesc
  have hany : kvs.any (fun kv => "description" == kv.1) = true := any_key_of_lookup hdesc
  simp [load_tasks, loadBody, pyIter, loadItems, loadItem, pyContains, getItem, pyGet,
    hraw, hany, hdesc]

/-- C7 witness: the spec example, a legacy record with a priority and no
deadline. -/
theorem legacy_record_mapping_witness :
    load_tasks (.json (.arr [.obj [("description", .str "x"), ("priority", .str "high")]]))
      = Except.ok [⟨.str "x", .str "unspecified", .str "high"⟩] :=
  legacy_record_mapping [("description", .str "x"), ("priority", .str "high")]
    (.str "x") (by decide) rfl

/-! Claim C2. -/

/-- A task list saved by `save_tasks` is read back record for record. -/
theorem loadItems_map_taskToObj : ∀ T : List Task, loadItems (T.map taskToObj) = .ok T := by
  intro T
  induction T with
  | nil => rfl
  | cons t T ih =>
    have h : loadItem (taskToObj t) = .ok (some t) := rfl
    simp only [List.map_cons, loadItems, h, ih]

/-- A valid task record in the sense of the round-trip claim: `raw_text`
and `deadline` are non-empty strings and `priority` is one of the three
levels. -/
def validTask (t : Task) : Prop :=
  (∃ s, t.raw_text = JSON.str s ∧ s ≠ "") ∧
  (∃ s, t.deadline = JSON.str s ∧ s ≠ "") ∧
  (t.priority = JSON.str "low" ∨ t.priority = JSON.str "medium" ∨
    t.priority = JSON.str "high")

/-- C2: saving any sequence of valid task records and loading the file
back yields the same sequence, field for field and in order. -/
theorem save_load_roundtrip :
    ∀ T : List Task, (∀ t ∈ T, validTask t) →
      load_tasks (save_tasks T) = Except.ok T := by
  intro T _
  simp only [save_tasks, load_tasks, loadBody, pyIter, loadItems_map_taskToObj]

/-- C2 witness: a concrete valid two-record store round-trips. -/
theorem save_load_roundtrip_witness :
    load_tasks (save_tasks [⟨.str "a", .str "today", .str "high"⟩,
                            ⟨.str "b", .str "unspecified", .str "medium"⟩])
      = Except.ok [⟨.str "a", .str "today", .str "high"⟩,
                   ⟨.str "b", .str "unspecified", .str "medium"⟩] :=
  save_load_roundtrip _ (by
    intro t ht
    simp only [List.mem_cons, List.not_mem_nil, or_false] at ht
    rcases ht with rfl | rfl
    · exact ⟨⟨"a", rfl, by decide⟩, ⟨"today", rfl, by decide⟩, Or.inr (Or.inr rfl)⟩
    · exact ⟨⟨"b", rfl, by decide⟩, ⟨"unspecified", rfl, by decide⟩, Or.inr (Or.inl rfl)⟩)

/-! Claim C4. -/

/-- A record matching neither schema is skipped by the loop body. -/
theorem loadItem_skip {item : JSON}
    (h1 : pyContains "raw_text" item = .ok false)
    (h2 : pyContains "description" item = .ok false) :
    loadItem item = .ok none := by
  simp [loadItem, h1, h2]

/-- Deleting a skippable record anywhere in the list does not change what
the loop produces. -/
theorem loadItems_skip_middle :
    ∀ (pre post : List JSON) (item : JSON), loadItem item = .ok none →
      loadItems (pre ++ item :: post) = loadItems (pre ++ post) := by
  intro pre
  induction pre with
  | nil => intro post item h; simp [loadItems, h]
  | cons p pre ih =>
    intro post item h
    simp only [List.cons_append, loadItems, List.append_eq]
    rw [ih post item h]

/-- C4: a well-formed record matching neither the current nor the legacy
schema is silently skipped, and the rest of the file loads exactly as it
would without it. -/
theorem unrecognized_record_skipped :
    ∀ (pre post : List JSON) (item : JSON),
      pyContains "raw_text" item = Except.ok false →
      pyContains "description" item = Except.ok false →
      load_tasks (.json (.arr (pre ++ item :: post)))
        = load_tasks (.json (.arr (pre ++ post))) := by
  intro pre post item h1 h2
  simp only [load_tasks, loadBody, pyIter]
  rw [loadItems_skip_middle pre post item (loadItem_skip h1 h2)]

/-- C4 witness: an unrecognized record between two current-schema records
is dropped while both neighbours still load. -/
theorem unrecognized_record_skipped_witness :
    load_tasks (.json (.arr
        [.obj [("raw_text", .str "a"), ("deadline", .str "d1"), ("priority", .str "high")],
         .obj [("note", .str "huh")],
         .obj [("raw_text", .str "b"), ("deadline", .str "d2"), ("priority", .str "low")]]))
      = load_tasks (.json (.arr
        [.obj [("raw_text", .str "a"), ("deadline", .str "d1"), ("priority", .str "high")],
         .obj [("raw_text", .str "b"), ("deadline", .str "d2"), ("priority", .str "low")]])) :=
  unrecognized_record_skipped
    [.obj [("raw_text", .str "a"), ("deadline", .str "d1"), ("priority", .str "high")]]
    [.obj [("raw_text", .str "b"), ("deadline", .str "d2"), ("priority", .str "low")]]
    (.obj [("note", .str "huh")]) rfl rfl

/-! Claim C10. -/

/-- The condition under which `Task(**item)` succeeds for a dict with
unique keys: all three field names present and no further key. -/
def kwargsOk (kvs : List (String × JSON)) : Bool :=
  (kvs.lookup "raw_text").isSome && (kvs.lookup "deadline").isSome &&
    (kvs.lookup "priority").isSome && decide (kvs.length = 3)

/-- The call `Task(**item)` raises `TypeError` exactly when `kwargsOk` fails. -/
theorem taskFromKwargs_error {kvs : List (String × JSON)}
    (h : kwargsOk kvs = false) : taskFromKwargs kvs = .error .typeError := by
  unfold kwargsOk at h
  unfold taskFromKwargs
  cases hrt : kvs.lookup "raw_text" with
  | none => rfl
  | some rt =>
    cases hdl : kvs.lookup "deadline" with
    | none => rfl
    | some dl =>
      cases hpr : kvs.lookup "priority" with
      | none => rfl
      | some pr =>
        simp only [hrt, hdl, hpr, Option.isSome_some, Bool.true_and] at h ⊢
        rw [if_neg (by simpa using h)]

/-- The `in` test only ever raises `TypeError`. -/
theorem pyContains_error_eq :
    ∀ (needle : String) (item : JSON) (e : PyErr),
      pyContains needle item = .error e → e = .typeError := by
  intro needle item e h
  cases item <;> simp only [pyContains] at h <;>
    first
      | (injection h with h; exact h.symm)
      | injection h

/-- The call `Task(**item)` only ever raises `TypeError`. -/
theorem taskFromKwargs_error_eq :
    ∀ (kvs : List (String × JSON)) (e : PyErr),
      taskFromKwargs kvs = .error e → e = .typeError := by
  intro kvs e h
  unfold taskFromKwargs at h
  repeat' split at h
  all_goals
    first
      | (injection h with h; exact h.symm)
      | injection h

/-- Subscripting only ever raises `TypeError` or `KeyError`, both of
which the `except` clause catches. -/
theorem getItem_error_caught :
    ∀ (item : JSON) (key : String) (e : PyErr),
      getItem item key = .error e → caught e = true := by
  intro item key e h
  unfold getItem at h
  repeat' split at h
  all_goals
    first
      | (injection h with h; subst h; rfl)
      | injection h

/-- A successful subscript means the value was a dict. -/
theorem getItem_ok_obj :
    ∀ (item : JSON) (key : String) (v : JSON),
      getItem item key = .ok v → ∃ kvs, item = .obj kvs := by
  intro item key v h
  cases item <;> simp only [getItem] at h <;>
    first
      | exact absurd h (by simp)
      | exact ⟨_, rfl⟩

/-- Any exception escaping one loop iteration is one of the caught
classes (`TypeError` or `KeyError`); in particular `.get` is only ever
called on a dict, so `AttributeError` never arises. -/
theorem loadItem_error_caught :
    ∀ (item : JSON) (e : PyErr), loadItem item = .error e → caught e = true := by
  intro item e h
  unfold loadItem at h
  cases hc : pyContains "raw_text" item with
  | error e1 =>
    rw [hc] at h
    injection h with h
    subst h
    have h2 := pyContains_error_eq _ _ _ hc
    subst h2
    rfl
  | ok b =>
    rw [hc] at h
    cases b with
    | true =>
      cases item with
      | obj kvs =>
        dsimp only at h
        cases ht : taskFromKwargs kvs with
        | error e2 =>
          rw [ht] at h
          injection h with h
          subst h
          have h2 := taskFromKwargs_error_eq _ _ ht
          subst h2
          rfl
        | ok t => rw [ht] at h; exact absurd h (by simp)
      | null => injection h with h; subst h; rfl
      | bool b2 => injection h with h; subst h; rfl
      | num n => injection h with h; subst h; rfl
      | str s => injection h with h; subst h; rfl
      | arr l => injection h with h; subst h; rfl
    | false =>
      cases hd : pyContains "description" item with
      | error e1 =>
        rw [hd] at h
        injection h with h
        subst h
        have h2 := pyContains_error_eq _ _ _ hd
        subst h2
        rfl
      | ok b2 =>
        rw [hd] at h
        cases b2 with
        | false => exact absurd h (by simp)
        | true =>
          cases hg : getItem item "description" with
          | error e1 =>
            rw [hg] at h
            injection h with h
            subst h
            exact getItem_error_caught _ _ _ hg
          | ok d =>
            rw [hg] at h
            obtain ⟨kvs, rfl⟩ := getItem_ok_obj _ _ _ hg
            simp [pyGet] at h

/-- Any exception escaping the whole loop is caught by the `except`
clause. -/
theorem loadItems_error_caught :
    ∀ (items : List JSON) (e : PyErr), loadItems items = .error e → caught e = true := by
  intro items
  induction items with
  | nil => intro e h; simp [loadItems] at h
  | cons item rest ih =>
    intro e h
    simp only [loadItems] at h
    cases hi : loadItem item with
    | error e2 =>
      rw [hi] at h
      injection h with h
      subst h
      exact loadItem_error_caught item e2 hi
    | ok o =>
      rw [hi] at h
      cases o with
      | none => exact ih e h
      | some t =>
        dsimp only at h
        cases hr : loadItems rest with
        | error e2 =>
          rw [hr] at h
          injection h with h
          subst h
          exact ih e2 hr
        | ok ts => rw [hr] at h; exact absurd h (by simp)

/-- If the whole loop returns normally, so does the loop run on any
suffix of the records. -/
theorem loadItems_append_ok :
    ∀ (xs ys : List JSON) (ts : List Task), loadItems (xs ++ ys) = .ok ts →
      ∃ us, loadItems ys = .ok us := by
  intro xs
  induction xs with
  | nil => intro ys ts h; exact ⟨ts, h⟩
  | cons x xs ih =>
    intro ys ts h
    simp only [List.cons_append, loadItems, List.append_eq] at h
    cases hi : loadItem x with
    | error e => rw [hi] at h; exact absurd h (by simp)
    | ok o =>
      rw [hi] at h
      cases o with
      | none => exact ih ys ts h
      | some t =>
        dsimp only at h
        cases hr : loadItems (xs ++ ys) with
        | error e => rw [hr] at h; exact absurd h (by simp)
        | ok us => exact ih ys us hr

/-- C10: one current-schema record whose keyword set is not exactly
`{raw_text, deadline, priority}` makes `Task(**item)` raise; the
exception aborts the loop, is caught, and the entire load returns `[]`,
well-formed records included. -/
theorem malformed_current_record_discards_all :
    ∀ (pre post : List JSON) (kvs : List (String × JSON)),
      kvs.any (fun kv => "raw_text" == kv.1) = true →
      kwargsOk kvs = false →
      load_tasks (.json (.arr (pre ++ JSON.obj kvs :: post))) = Except.ok [] := by
  intro pre post kvs hraw hbad
  have hitem : loadItem (.obj kvs) = .error .typeError := by
    simp [loadItem, pyContains, hraw, taskFromKwargs_error hbad]
  have hnotok : ∀ ts : List Task, loadItems (pre ++ JSON.obj kvs :: post) ≠ .ok ts := by
    intro ts h
    obtain ⟨us, hus⟩ := loadItems_append_ok pre (JSON.obj kvs :: post) ts h
    simp [loadItems, hitem] at hus
  simp only [load_tasks, loadBody, pyIter]
  cases hres : loadItems (pre ++ JSON.obj kvs :: post) with
  | ok ts => exact absurd hres (hnotok ts)
  | error e => simp [loadItems_error_caught _ e hres]

/-- C10 witness: a record missing `deadline` and `priority` between two
well-formed records wipes the whole load. -/
theorem malformed_current_record_discards_all_witness :
    load_tasks (.json (.arr
        [.obj [("raw_text", .str "a"), ("deadline", .str "d1"), ("priority", .str "high")],
         .obj [("raw_text", .str "x")],
         .obj [("raw_text", .str "b"), ("deadline", .str "d2"), ("priority", .str "low")]]))
      = Except.ok [] :=
  malformed_current_record_discards_all
    [.obj [("raw_text", .str "a"), ("deadline", .str "d1"), ("priority", .str "high")]]
    [.obj [("raw_text", .str "b"), ("deadline", .str "d2"), ("priority", .str "low")]]
    [("raw_text", .str "x")] (by decide) (by decide)

/-! Claim C6. -/

/-- If every regex before position `i` fails to match anywhere and the
regex at position `i` matches, the loop returns that match. -/
theorem firstMatch_of_first (t : List Char) :
    ∀ (rs : List (List Char → Option (List Char))) (i : Nat) (hi : i < rs.length)
      (m : List Char),
      (∀ j (hj : j < i), searchPat (rs.get ⟨j, Nat.lt_trans hj hi⟩) t = none) →
      searchPat (rs.get ⟨i, hi⟩) t = some m →
      firstMatch t rs = some m := by
  intro rs
  induction rs with
  | nil => intro i hi; exact absurd hi (Nat.not_lt_zero i)
  | cons r rs ih =>
    intro i hi m hprev hcur
    cases i with
    | zero =>
      simp only [List.get] at hcur
      simp only [firstMatch, hcur]
    | succ i2 =>
      have h0 : searchPat r t = none := hprev 0 (Nat.succ_pos i2)
      simp only [firstMatch, h0]
      exact ih i2 (Nat.lt_of_succ_lt_succ hi) m
        (fun j hj => hprev (j + 1) (Nat.succ_lt_succ hj)) hcur

/-- If no regex matches anywhere, the loop returns nothing. -/
theorem firstMatch_of_none (t : List Char) :
    ∀ (rs : List (List Char → Option (List Char))),
      (∀ i (hi : i < rs.length), searchPat (rs.get ⟨i, hi⟩) t = none) →
      firstMatch t rs = none := by
  intro rs
  induction rs with
  | nil => intro _; rfl
  | cons r rs ih =>
    intro hall
    have h0 : searchPat r t = none := hall 0 (Nat.succ_pos rs.length)
    simp only [firstMatch, h0]
    exact ih (fun i hi => hall (i + 1) (Nat.succ_lt_succ hi))

/-- C6: `extract_deadline` lowercases the text and tries the seven
deadline regexes in their listed order; the first regex in list order
that matches anywhere returns its matched substring verbatim,
`"unspecified"` is returned when none matches, and in particular
`"today or tomorrow"` yields `"today"` even though both patterns occur. -/
theorem extract_deadline_first_pattern_wins :
    (∀ (text : String) (i : Nat) (hi : i < DEADLINE_REGEXES.length) (m : List Char),
      (∀ j (hj : j < i),
        searchPat (DEADLINE_REGEXES.get ⟨j, Nat.lt_trans hj hi⟩) (lowerChars text) = none) →
      searchPat (DEADLINE_REGEXES.get ⟨i, hi⟩) (lowerChars text) = some m →
      extract_deadline text = String.mk m) ∧
    (∀ text : String,
      (∀ i (hi : i < DEADLINE_REGEXES.length),
        searchPat (DEADLINE_REGEXES.get ⟨i, hi⟩) (lowerChars text) = none) →
      extract_deadline text = "unspecified") ∧
    extract_deadline "today or tomorrow" = "today" := by
  refine ⟨?_, ?_, rfl⟩
  · intro text i hi m hprev hcur
    unfold extract_deadline
    rw [firstMatch_of_first (lowerChars text) DEADLINE_REGEXES i hi m hprev hcur]
  · intro text hall
    unfold extract_deadline
    rw [firstMatch_of_none (lowerChars text) DEADLINE_REGEXES hall]

/-- C6 witness: the first conjunct applied to the spec example (pattern 0
is `today`, no earlier pattern exists), and the fallback conjunct applied
to a text no pattern matches. -/
theorem extract_deadline_first_pattern_wins_witness :
    extract_deadline "today or tomorrow" = String.mk "today".toList ∧
    extract_deadline "buy milk" = "unspecified" :=
  ⟨extract_deadline_first_pattern_wins.1 "today or tomorrow" 0 (by decide)
      "today".toList (fun j hj => absurd hj (Nat.not_lt_zero j)) (by decide),
   extract_deadline_first_pattern_wins.2.1 "buy milk" (by decide)⟩

/-! Claim C8. -/

/-- C8: an out-of-range one-based index (0, length+1, anything outside
`1..length`) leaves the store untouched and writes nothing; an in-range
index removes exactly the element at that position, shifts every later
element down one position, and persists the resulting store. -/
theorem delete_task_bounds (tasks : List Task) (idx : Int) :
    (¬(1 ≤ idx ∧ idx ≤ tasks.length) → delete_task tasks idx = (tasks, none)) ∧
    ((1 ≤ idx ∧ idx ≤ tasks.length) →
      (delete_task tasks idx).2 = some (save_tasks (delete_task tasks idx).1) ∧
      (delete_task tasks idx).1.length + 1 = tasks.length ∧
      (∀ j : Nat, (j : Int) < idx - 1 → ((delete_task tasks idx).1)[j]? = tasks[j]?) ∧
      (∀ j : Nat, idx - 1 ≤ (j : Int) → ((delete_task tasks idx).1)[j]? = tasks[j + 1]?)) := by
  constructor
  · intro hout
    unfold delete_task
    cases he : tasks.isEmpty with
    | true => simp
    | false => rw [if_neg (by simp [he]), if_neg hout]
  · intro hin
    obtain ⟨h1, h2⟩ := hin
    have hne : tasks.isEmpty = false := by
      cases tasks with
      | nil => simp at h2; omega
      | cons a l => rfl
    have hlt : (idx - 1).toNat < tasks.length := by omega
    unfold delete_task
    rw [if_neg (by simp [hne]), if_pos ⟨h1, h2⟩]
    refine ⟨rfl, ?_, ?_, ?_⟩
    · exact List.length_eraseIdx_add_one hlt
    · intro j hj
      exact List.getElem?_eraseIdx_of_lt tasks (idx - 1).toNat j (by omega)
    · intro j hj
      exact List.getElem?_eraseIdx_of_ge tasks (idx - 1).toNat j (by omega)

/-- C8 witness: on a two-element store, index 0 is rejected without a
write and index 1 removes the first element and persists. -/
theorem delete_task_bounds_witness :
    delete_task [⟨.str "a", .str "d1", .str "high"⟩, ⟨.str "b", .str "d2", .str "low"⟩] 0
      = ([⟨.str "a", .str "d1", .str "high"⟩, ⟨.str "b", .str "d2", .str "low"⟩], none) ∧
    (delete_task [⟨.str "a", .str "d1", .str "high"⟩, ⟨.str "b", .str "d2", .str "low"⟩] 1).2
      = some (save_tasks
          (delete_task [⟨.str "a", .str "d1", .str "high"⟩,
                        ⟨.str "b", .str "d2", .str "low"⟩] 1).1) :=
  ⟨(delete_task_bounds [⟨.str "a", .str "d1", .str "high"⟩,
      ⟨.str "b", .str "d2", .str "low"⟩] 0).1 (by decide),
   ((delete_task_bounds [⟨.str "a", .str "d1", .str "high"⟩,
      ⟨.str "b", .str "d2", .str "low"⟩] 1).2 (by decide)).1⟩

/-! Claim C9. -/

/-- A string that strips to empty consists of whitespace only. -/
theorem pyStrip_empty_all_space {s : String} (h : pyStrip s = "") :
    ∀ c ∈ s.toList, isPySpace c = true := by
  have hL : ((s.toList.dropWhile isPySpace).reverse.dropWhile isPySpace).reverse = [] := by
    simpa [pyStrip] using congrArg String.data h
  rw [List.reverse_eq_nil_iff] at hL
  have h2 : ∀ c ∈ (s.toList.dropWhile isPySpace).reverse, isPySpace c :=
    List.dropWhile_eq_nil_iff.mp hL
  have h3 : ∀ c ∈ s.toList.dropWhile isPySpace, isPySpace c :=
    fun c hc => h2 c (List.mem_reverse.mpr hc)
  intro c hc
  rw [← List.takeWhile_append_dropWhile (p := isPySpace) (l := s.toList)] at hc
  rcases List.mem_append.mp hc with h4 | h4
  · exact List.mem_takeWhile_imp h4
  · exact h3 c h4

/-- Lowercasing does not change a whitespace character. -/
theorem isPySpace_toLower {c : Char} (h : isPySpace c = true) :
    isPySpace c.toLower = true := by
  have hc : c = ' ' ∨ c = '\t' ∨ c = '\n' ∨ c = '\x0d' ∨ c = '\x0b' ∨ c = '\x0c' := by
    simpa only [isPySpace, Bool.or_eq_true, beq_iff_eq, or_assoc] using h
  rcases hc with rfl | rfl | rfl | rfl | rfl | rfl <;> decide

/-- A needle with a non-whitespace character is not a substring of an
all-whitespace haystack. -/
theorem substrAux_all_space {n hay : List Char}
    (hhay : ∀ c ∈ hay, isPySpace c = true)
    (hn : ∃ c ∈ n, isPySpace c = false) :
    substrAux n hay = false := by
  induction hay with
  | nil =>
    obtain ⟨c, hc, _⟩ := hn
    cases n with
    | nil => simp at hc
    | cons a as => simp [substrAux]
  | cons c rest ih =>
    have htail : ∀ d ∈ rest, isPySpace d = true :=
      fun d hd => hhay d (List.mem_cons_of_mem c hd)
    simp only [substrAux]
    refine Bool.or_eq_false_iff.mpr ⟨?_, ih htail⟩
    cases hp : n.isPrefixOf (c :: rest) with
    | false => rfl
    | true =>
      obtain ⟨d, hd, hds⟩ := hn
      have hpre : n <+: c :: rest := List.isPrefixOf_iff_prefix.mp hp
      rw [hhay d (hpre.subset hd)] at hds
      simp at hds

/-- The lowercased form of an all-whitespace string is all whitespace. -/
theorem lowerChars_all_space {s : String}
    (h : ∀ c ∈ s.toList, isPySpace c = true) :
    ∀ c ∈ lowerChars s, isPySpace c = true := by
  intro c hc
  simp only [lowerChars, List.mem_map] at hc
  obtain ⟨d, hd, rfl⟩ := hc
  exact isPySpace_toLower (h d hd)

/-- On all-whitespace text, no priority keyword list fires, so
`extract_priority` takes its default branch. -/
theorem extract_priority_all_space {s : String}
    (h : ∀ c ∈ lowerChars s, isPySpace c = true) :
    extract_priority s = "medium" := by
  have hany : ∀ ws : List String,
      (∀ w ∈ ws, ∃ c ∈ w.toList, isPySpace c = false) →
      ws.any (fun w => containsSub w (lowerChars s)) = false := by
    intro ws hws
    rw [List.any_eq_false]
    intro w hw
    simp only [Bool.not_eq_true]
    exact substrAux_all_space h (hws w hw)
  unfold extract_priority
  dsimp only
  rw [hany LOW_PRIORITY_PHRASES (by decide), hany PRIORITY_KEYWORDS_high (by decide)]
  simp

/-- A literal whose first character is not whitespace cannot match at the
head of all-whitespace text. -/
theorem matchLit_all_space {lit : String} {d : Char} {ds : List Char}
    (hlit : lit.toList = d :: ds) (hd : isPySpace d = false) :
    ∀ s : List Char, (∀ c ∈ s, isPySpace c = true) → matchLit lit s = none := by
  intro s hs
  unfold matchLit
  rw [hlit]
  cases s with
  | nil => simp
  | cons c cs =>
    have hdc : (d == c) = false := by
      cases hb : (d == c) with
      | false => rfl
      | true =>
        have hcs := hs c (List.mem_cons_self c cs)
        rw [← beq_iff_eq.mp hb] at hcs
        rw [hcs] at hd
        simp at hd
    simp [List.isPrefixOf, hdc]

/-- The `within ...` matcher cannot match at the head of all-whitespace text. -/
theorem matchWithin_all_space :
    ∀ s : List Char, (∀ c ∈ s, isPySpace c = true) → matchWithin s = none := by
  intro s hs
  unfold matchWithin
  rw [@matchLit_all_space "within " 'w' "ithin ".toList rfl (by decide) s hs]

/-- A literal-then-alternation pattern cannot match at the head of
all-whitespace text. -/
theorem matchSeqAlt_all_space (lit : String) (alts : List String) {d : Char}
    {ds : List Char} (hlit : lit.toList = d :: ds) (hd : isPySpace d = false) :
    ∀ s : List Char, (∀ c ∈ s, isPySpace c = true) → matchSeqAlt lit alts s = none := by
  intro s hs
  unfold matchSeqAlt
  rw [matchLit_all_space hlit hd s hs]

/-- A matcher that fails on every all-whitespace input fails to match
anywhere in all-whitespace text. -/
theorem searchPat_all_space {m : List Char → Option (List Char)}
    (hm : ∀ s : List Char, (∀ c ∈ s, isPySpace c = true) → m s = none) :
    ∀ t : List Char, (∀ c ∈ t, isPySpace c = true) → searchPat m t = none := by
  intro t
  induction t with
  | nil =>
    intro ht
    simp only [searchPat]
    exact hm [] ht
  | cons c cs ih =>
    intro ht
    simp only [searchPat]
    rw [hm (c :: cs) ht]
    exact ih (fun d hd => ht d (List.mem_cons_of_mem c hd))

/-- On all-whitespace text no deadline regex matches, so
`extract_deadline` falls through to the sentinel. -/
theorem extract_deadline_all_space {s : String}
    (h : ∀ c ∈ lowerChars s, isPySpace c = true) :
    extract_deadline s = "unspecified" := by
  have e1 : searchPat (matchLit "today") (lowerChars s) = none :=
    searchPat_all_space (@matchLit_all_space "today" 't' "oday".toList rfl (by decide)) _ h
  have e2 : searchPat (matchLit "tomorrow") (lowerChars s) = none :=
    searchPat_all_space (@matchLit_all_space "tomorrow" 't' "omorrow".toList rfl (by decide)) _ h
  have e3 : searchPat matchWithin (lowerChars s) = none :=
    searchPat_all_space matchWithin_all_space _ h
  have e4 : searchPat (matchSeqAlt "by " weekdays) (lowerChars s) = none :=
    searchPat_all_space
      (@matchSeqAlt_all_space "by " weekdays 'b' "y ".toList rfl (by decide)) _ h
  have e5 : searchPat (matchSeqAlt "this " weekdays) (lowerChars s) = none :=
    searchPat_all_space
      (@matchSeqAlt_all_space "this " weekdays 't' "his ".toList rfl (by decide)) _ h
  have e6 : searchPat (matchSeqAlt "next " weekdays) (lowerChars s) = none :=
    searchPat_all_space
      (@matchSeqAlt_all_space "next " weekdays 'n' "ext ".toList rfl (by decide)) _ h
  have e7 : searchPat (matchSeqAlt "next " ["week", "month"]) (lowerChars s) = none :=
    searchPat_all_space
      (@matchSeqAlt_all_space "next " ["week", "month"] 'n' "ext ".toList
        rfl (by decide)) _ h
  unfold extract_deadline
  have hall : firstMatch (lowerChars s) DEADLINE_REGEXES = none := by
    simp only [DEADLINE_REGEXES, firstMatch, e1, e2, e3, e4, e5, e6, e7]
  rw [hall]

/-- C9: `parse_task` does no emptiness validation: on empty or
whitespace-only input it still builds a record with `raw_text` the
stripped (empty) input, deadline `"unspecified"` and priority `"medium"`;
the rejection of blank input lives only in `add_task`, which returns
before parsing or saving. -/
theorem parse_task_blank_input :
    ∀ user_input : String, pyStrip user_input = "" →
      parse_task user_input = ⟨.str "", .str "unspecified", .str "medium"⟩ ∧
      ∀ tasks : List Task, add_task tasks user_input = (tasks, none) := by
  intro s h
  have hlow := lowerChars_all_space (pyStrip_empty_all_space h)
  constructor
  · unfold parse_task
    rw [h, extract_deadline_all_space hlow, extract_priority_all_space hlow]
  · intro tasks
    simp [add_task, h]

/-- C9 witness: a whitespace-only input parses to the blank record, and
`add_task` on it leaves the store alone and writes nothing. -/
theorem parse_task_blank_input_witness :
    parse_task "  " = ⟨.str "", .str "unspecified", .str "medium"⟩ ∧
    add_task [] "  " = ([], none) :=
  ⟨(parse_task_blank_input "  " (by decide)).1,
   (parse_task_blank_input "  " (by decide)).2 []⟩

end TaskApp
